import Mathlib

/-!
# Verification of the battleship game session engine

Shallow embedding of the backend game logic of the `battleship-game`
repository:

* `Utils` helpers (`src/backend/src/utils/index.ts`)
* `GameService.validateShipPlacement` / `GameService.processMove`
  (`src/backend/src/services/GameService.ts`)
* `GameRoomModel` registry operations, including `cleanupRooms`
  (`src/backend/src/models/GameRoom.ts`)
* the socket handlers `place-ships`, `player-ready`, `make-move`,
  `restart-game` and the join flow
  (`src/backend/src/sockets/GameSocketHandler.ts`)

JS numbers used as coordinates are modelled as `Int` (the claims are about
integer inputs); JS arrays are Lean lists, with out-of-bounds reads
modelled by `Option` (JS `undefined`), and the board cell type
`string | null` modelled as `Option String`.  Timestamps (`Date.getTime()`)
are `Int` milliseconds and the fractional minute ages computed by
`cleanupRooms` are `Rat`.
-/

namespace Battleship

/-- The `gameState` field of a room: "waiting" | "setup" | "playing" | "finished". -/
inductive GameState where
  | waiting
  | setup
  | playing
  | finished
deriving DecidableEq

/-- A board coordinate `{ x: number; y: number }`. -/
structure Pos where
  x : Int
  y : Int
deriving DecidableEq

/-- `Ship` from `src/backend/src/types/index.ts`. -/
structure Ship where
  id : String
  name : String
  length : Int
  positions : List Pos
  isDestroyed : Bool
deriving DecidableEq

/-- A board cell: `string | null` (`null` = nothing recorded,
`"miss"` = recorded miss, a ship id = recorded hit on that ship). -/
abbrev Cell := Option String

/-- `(string | null)[][]`. -/
abbrev Board := List (List Cell)

/-- `boolean[][]` (the `hits` / `misses` grids). -/
abbrev Grid := List (List Bool)

/-- `Player` from `src/backend/src/types/index.ts` (the transport-only
`socketId` field is omitted: no game logic reads it). -/
structure Player where
  id : String
  userId : String
  name : String
  isReady : Bool
  board : Board
  ships : List Ship
  hits : Grid
  misses : Grid
deriving DecidableEq

/-- `GameRoom` from `src/backend/src/types/index.ts`; `createdAt` is the
epoch-millisecond value of the `Date`. -/
structure GameRoom where
  id : String
  players : List Player
  currentTurn : Option String
  gameState : GameState
  winner : Option String
  createdAt : Int
deriving DecidableEq

/-- `MoveResult` from `src/backend/src/types/index.ts`; the optional TS
fields are `Option`s (`none` = `undefined`). -/
structure MoveResult where
  hit : Bool
  shipDestroyed : Option Bool
  gameEnded : Option Bool
  winner : Option String
deriving DecidableEq

/-! ## Utils (`src/backend/src/utils/index.ts`) -/

/-- `Utils.validateCoordinates`. -/
def validateCoordinates (x y : Int) (boardSize : Int) : Bool :=
  0 ≤ x && x < boardSize && 0 ≤ y && y < boardSize

/-- `Utils.positionsEqual`. -/
def positionsEqual (pos1 pos2 : Pos) : Bool :=
  pos1.x == pos2.x && pos1.y == pos2.y

/-- `Utils.shipsOverlap`. -/
def shipsOverlap (ship1 ship2 : Ship) : Bool :=
  ship1.positions.any fun pos1 => ship2.positions.any fun pos2 => positionsEqual pos1 pos2

/-- `Utils.hasOverlappingShips`: the double loop over index pairs `i < j`. -/
def hasOverlappingShips : List Ship → Bool
  | [] => false
  | s :: rest => rest.any (shipsOverlap s) || hasOverlappingShips rest

/-- JS `grid[x] && grid[x][y]` truthiness (used both by
`Utils.isPositionTargeted` and by the inline `alreadyTargeted` check of the
`make-move` handler): a missing row (`undefined`) is falsy, a missing cell
is falsy. -/
def gridTruthy (grid : Grid) (x y : Int) : Bool :=
  match (if 0 ≤ x then grid.get? x.toNat else none) with
  | none => false
  | some row => (if 0 ≤ y then row.get? y.toNat else none) == some true

/-- `Utils.findShipAtPosition`. -/
def findShipAtPosition (ships : List Ship) (position : Pos) : Option Ship :=
  ships.find? fun ship => ship.positions.any fun pos => positionsEqual pos position

/-- `Utils.isShipDestroyed`. -/
def isShipDestroyed (ship : Ship) (hitPositions : List Pos) : Bool :=
  ship.positions.all fun pos => hitPositions.any fun hitPos => positionsEqual pos hitPos

/-- `Utils.areAllShipsDestroyed`. -/
def areAllShipsDestroyed (ships : List Ship) : Bool :=
  ships.all fun ship => ship.isDestroyed

/-- `Utils.validateShipLength`. -/
def validateShipLength (ship : Ship) : Bool :=
  (ship.positions.length : Int) == ship.length

/-- `Utils.validateAllShipLengths`. -/
def validateAllShipLengths (ships : List Ship) : Bool :=
  ships.all validateShipLength

/-- The comparator of `validateShipContinuity`'s sort:
`(a, b) => a.x !== b.x ? a.x - b.x : a.y - b.y`, as a `≤` test. -/
def posLe (a b : Pos) : Bool :=
  if a.x != b.x then a.x ≤ b.x else a.y ≤ b.y

/-- Index-based chain check of `validateShipContinuity` for the horizontal
case: every index `i > 0` satisfies
`sorted[i].y === sorted[0].y && sorted[i].x === sorted[i-1].x + 1`. -/
def horizontalChain (sorted : List Pos) : Bool :=
  (List.range sorted.length).all fun i =>
    i == 0 ||
      match sorted.get? i, sorted.get? (i - 1), sorted.get? 0 with
      | some p, some q, some h => p.y == h.y && p.x == q.x + 1
      | _, _, _ => false

/-- Vertical chain check of `validateShipContinuity`:
`sorted[i].x === sorted[0].x && sorted[i].y === sorted[i-1].y + 1`. -/
def verticalChain (sorted : List Pos) : Bool :=
  (List.range sorted.length).all fun i =>
    i == 0 ||
      match sorted.get? i, sorted.get? (i - 1), sorted.get? 0 with
      | some p, some q, some h => p.x == h.x && p.y == q.y + 1
      | _, _, _ => false

/-- Insert into a `posLe`-sorted list. -/
def insertPosLe (a : Pos) : List Pos → List Pos
  | [] => [a]
  | b :: rest => if posLe a b then a :: b :: rest else b :: insertPosLe a rest

/-- `[...ship.positions].sort(cmp)` with the coordinate comparator: a JS
sort returns a permutation sorted by the comparator, and since this
comparator only ties on equal coordinate pairs every sorted permutation
is the same list; insertion sort computes it (structural recursion so
that the kernel can evaluate concrete fleets). -/
def sortPositions : List Pos → List Pos
  | [] => []
  | a :: rest => insertPosLe a (sortPositions rest)

/-- `Utils.validateShipContinuity`. -/
def validateShipContinuity (ship : Ship) : Bool :=
  if ship.positions.length ≤ 1 then true
  else
    let sortedPositions := sortPositions ship.positions
    horizontalChain sortedPositions || verticalChain sortedPositions

/-- One entry of `Utils.getRequiredShips`. -/
structure RequiredShip where
  name : String
  length : Int
  count : Nat
deriving DecidableEq

/-- `Utils.getRequiredShips`. -/
def getRequiredShips : List RequiredShip :=
  [⟨"Carrier", 5, 1⟩, ⟨"Battleship", 4, 1⟩, ⟨"Cruiser", 3, 1⟩,
   ⟨"Submarine", 3, 1⟩, ⟨"Destroyer", 2, 1⟩]

/-- `Utils.validateRequiredShips`: ships are counted *by length* into a map
and each requirement checks `actualCount >= req.count`. -/
def validateRequiredShips (ships : List Ship) : Bool :=
  getRequiredShips.all fun req =>
    ships.countP (fun ship => ship.length == req.length) ≥ req.count

/-! ## GameService (`src/backend/src/services/GameService.ts`) -/

/-- `GameService.initializeBoard(size = 10)` (name shortened: the original
identifier cannot be used here): a `size × size` board of `null`s. -/
def initBoard (size : Nat) : Board :=
  List.replicate size (List.replicate size none)

/-- An all-`false` `size × size` boolean grid (the
`Array(10).fill(false).map(() => Array(10).fill(false))` pattern used for
the `hits`/`misses` grids). -/
def falseGrid (size : Nat) : Grid :=
  List.replicate size (List.replicate size false)

/-- `GameService.validateShipPlacement(ships, boardSize = 10)`. -/
def validateShipPlacement (ships : List Ship) (boardSize : Int) : Bool :=
  if ships.any (fun ship => ship.positions.any fun pos =>
      !validateCoordinates pos.x pos.y boardSize) then false
  else if hasOverlappingShips ships then false
  else if !validateAllShipLengths ships then false
  else if ships.any (fun ship => !validateShipContinuity ship) then false
  else if !validateRequiredShips ships then false
  else true

/-- JS write `board[x][y] = v` (only performed in-range by the code; a
write whose row does not exist is a no-op here). -/
def setCell (board : Board) (x y : Int) (v : Cell) : Board :=
  if 0 ≤ x ∧ 0 ≤ y then
    match board.get? x.toNat with
    | some row => board.set x.toNat (row.set y.toNat v)
    | none => board
  else board

/-- JS write `grid[x][y] = true` on a boolean grid. -/
def setGrid (grid : Grid) (x y : Int) : Grid :=
  if 0 ≤ x ∧ 0 ≤ y then
    match grid.get? x.toNat with
    | some row => grid.set x.toNat (row.set y.toNat true)
    | none => grid
  else grid

/-- JS read `board[x][y]` flattened: `some id`/`some "miss"` when that
string is stored, `none` for `null` or any out-of-bounds access. -/
def lookupCell (board : Board) (x y : Int) : Option String :=
  if 0 ≤ x ∧ 0 ≤ y then
    match board.get? x.toNat with
    | some row =>
      match row.get? y.toNat with
      | some c => c
      | none => none
    | none => none
  else none

/-- The double scan of `processMove` collecting every board coordinate
whose cell equals the hit ship's id. -/
def collectHitPositions (board : Board) (shipId : String) : List Pos :=
  (List.range board.length).flatMap fun i =>
    match board.get? i with
    | none => []
    | some row =>
      (List.range row.length).filterMap fun j =>
        if row.get? j = some (some shipId) then some ⟨(i : Int), (j : Int)⟩ else none

/-- Replace the first element satisfying `p` by its image under `f`
(models the in-place mutation of an object found by `Array.find`). -/
def updateFirst (p : α → Bool) (f : α → α) : List α → List α
  | [] => []
  | a :: rest => if p a then f a :: rest else a :: updateFirst p f rest

/-- Result of `GameService.processMove`: the mutated `targetBoard`, the
mutated `ships` array, and the returned `MoveResult`. -/
structure ProcessOut where
  board : Board
  ships : List Ship
  result : MoveResult
deriving DecidableEq

/-- `GameService.processMove(targetBoard, ships, x, y)`. -/
def processMove (targetBoard : Board) (ships : List Ship) (x y : Int) : ProcessOut :=
  let position : Pos := ⟨x, y⟩
  match findShipAtPosition ships position with
  | none =>
    { board := setCell targetBoard x y (some "miss"), ships := ships,
      result := { hit := false, shipDestroyed := none, gameEnded := none, winner := none } }
  | some hitShip =>
    let board1 := setCell targetBoard x y (some hitShip.id)
    let hitPositions := collectHitPositions board1 hitShip.id
    let shipDestroyed := isShipDestroyed hitShip hitPositions
    let ships1 :=
      if shipDestroyed then
        updateFirst (fun ship => ship.positions.any fun pos => positionsEqual pos position)
          (fun ship => { ship with isDestroyed := true }) ships
      else ships
    let gameEnded := areAllShipsDestroyed ships1
    { board := board1, ships := ships1,
      result := { hit := true, shipDestroyed := some shipDestroyed,
                  gameEnded := some gameEnded,
                  winner := if gameEnded then some "current_player" else none } }

/-! ## GameRoomModel per-room operations (`src/backend/src/models/GameRoom.ts`) -/

/-- The fresh room built by `GameRoomModel.createRoom`. -/
def mkNewRoom (rid : String) (now : Int) : GameRoom :=
  { id := rid, players := [], currentTurn := none, gameState := .waiting,
    winner := none, createdAt := now }

/-- Body of `GameRoomModel.addPlayerToRoom` once the room is found; the
`Bool` is the returned success flag. -/
def addPlayerRoom (room : GameRoom) (player : Player) : GameRoom × Bool :=
  if room.players.length ≥ 2 then (room, false)
  else if (room.players.find? fun p => p.id == player.id).isSome then (room, false)
  else
    let players1 := room.players ++ [player]
    let gameState1 :=
      if players1.length = 2 ∧ room.gameState = .waiting then GameState.setup
      else room.gameState
    ({ room with players := players1, gameState := gameState1 }, true)

/-- Body of `GameRoomModel.removePlayerFromRoom` once the room is found. -/
def removePlayerRoom (room : GameRoom) (playerId : String) : GameRoom × Bool :=
  match room.players.findIdx? (fun p => p.id == playerId) with
  | none => (room, false)
  | some i =>
    let players1 := room.players.eraseIdx i
    if room.gameState ≠ .waiting then
      ({ room with players := players1, gameState := .waiting,
                   currentTurn := none, winner := none }, true)
    else
      ({ room with players := players1 }, true)

/-! ## Socket handlers (`src/backend/src/sockets/GameSocketHandler.ts`),
as per-room state transformers.  Authentication, the `UserService` calls
and the emitted events are transport-layer and are not part of the room
state; a handler whose guard fails leaves the room unchanged. -/

/-- The player object built by the `join-room` handler for an
authenticated user (`Utils.generatePlayerId()` supplies `pid`). -/
def mkJoinPlayer (pid uid uname : String) : Player :=
  { id := pid, userId := uid, name := uname, isReady := false,
    board := initBoard 10, ships := [], hits := falseGrid 10, misses := falseGrid 10 }

/-- `place-ships` handler body for an authenticated caller: validate the
fleet, then store it on the caller's player object (no phase check in the
source). -/
def placeShips (room : GameRoom) (uid : String) (ships : List Ship) : GameRoom :=
  if validateShipPlacement ships 10 then
    match room.players.find? (fun p => p.userId == uid) with
    | some _ =>
      let players1 :=
        updateFirst (fun p => p.userId == uid) (fun p => { p with ships := ships })
          room.players
      { room with players := players1 }
    | none => room
  else room

/-- Sets the caller's `isReady` flag (the in-place `player.isReady = true`). -/
def setReadyFirst (uid : String) (players : List Player) : List Player :=
  updateFirst (fun p => p.userId == uid) (fun p => { p with isReady := true }) players

/-- The `allReady` condition of the `player-ready` handler:
`players.length === 2 && players.every(p => p.isReady && p.ships.length > 0)`. -/
def allReadyCond (players : List Player) : Bool :=
  players.length == 2 && players.all fun p => p.isReady && decide (p.ships.length > 0)

/-- `player-ready` handler body for an authenticated caller (no phase
check in the source). -/
def markReady (room : GameRoom) (uid : String) : GameRoom :=
  if (room.players.find? fun p => p.userId == uid).isSome then
    if allReadyCond (setReadyFirst uid room.players) then
      { room with players := setReadyFirst uid room.players, gameState := .playing,
                  currentTurn := ((setReadyFirst uid room.players).head?).map Player.id }
    else
      { room with players := setReadyFirst uid room.players }
  else room

/-- Outcome of the `make-move` handler: every early `return` (wrong phase,
not seated, off-turn, no opponent, repeat target, out-of-range) is
`rejected`; `moved` carries the `MoveResult` returned by
`GameService.processMove`. -/
inductive MoveOutcome where
  | rejected
  | moved (result : MoveResult)
deriving DecidableEq

/-- First player whose `userId` matches (how every handler locates the
caller's seat). -/
def playerOf (room : GameRoom) (uid : String) : Option Player :=
  room.players.find? fun p => p.userId == uid

/-- `room.players.find(p => p.id !== player.id)`: the opponent seat. -/
def opponentOf (room : GameRoom) (player : Player) : Option Player :=
  room.players.find? fun q => q.id != player.id

/-- The shooter's seat after an accepted shot:
`player.hits[x][y] = true` on a hit, `player.misses[x][y] = true` on a
miss. -/
def shooterAfter (player : Player) (x y : Int) (hit : Bool) : Player :=
  if hit then { player with hits := setGrid player.hits x y }
  else { player with misses := setGrid player.misses x y }

/-- The opponent's seat after `processMove` mutated its board and
ships. -/
def opponentAfter (opponent : Player) (pm : ProcessOut) : Player :=
  { opponent with board := pm.board, ships := pm.ships }

/-- The seat list after an accepted shot: the caller's seat (found by
`userId`) carries the updated shot grid, the opponent's seat (the first
seat whose id differs from the caller's) carries the mutated board and
fleet. -/
def playersAfter (room : GameRoom) (uid : String) (player opponent : Player)
    (x y : Int) : List Player :=
  updateFirst (fun q => q.id != player.id)
    (fun _ => opponentAfter opponent (processMove opponent.board opponent.ships x y))
    (updateFirst (fun p => p.userId == uid)
      (fun _ => shooterAfter player x y
        (processMove opponent.board opponent.ships x y).result.hit)
      room.players)

/-- `make-move` handler body for an authenticated caller. -/
def makeMove (room : GameRoom) (uid : String) (x y : Int) : GameRoom × MoveOutcome :=
  if room.gameState ≠ .playing then (room, .rejected)
  else
    match playerOf room uid with
    | none => (room, .rejected)
    | some player =>
      if room.currentTurn ≠ some player.id then (room, .rejected)
      else
        match opponentOf room player with
        | none => (room, .rejected)
        | some opponent =>
          if gridTruthy player.hits x y || gridTruthy player.misses x y then (room, .rejected)
          else if ¬(0 ≤ x ∧ x < 10 ∧ 0 ≤ y ∧ y < 10) then (room, .rejected)
          else if (processMove opponent.board opponent.ships x y).result.gameEnded
              = some true then
            ({ room with players := playersAfter room uid player opponent x y,
                         gameState := .finished, winner := some player.id },
             .moved (processMove opponent.board opponent.ships x y).result)
          else
            ({ room with players := playersAfter room uid player opponent x y,
                         currentTurn := some opponent.id },
             .moved (processMove opponent.board opponent.ships x y).result)

/-- `restart-game` handler body for an authenticated caller (the source
checks only that the room exists, not that the caller is seated). -/
def restartRoom (room : GameRoom) : GameRoom :=
  let players1 := room.players.map fun p =>
    { p with isReady := false, board := initBoard 10, ships := [],
             hits := falseGrid 10, misses := falseGrid 10 }
  { room with gameState := .setup, currentTurn := none, winner := none,
              players := players1 }

/-! ## Registry (`GameRoomModel.rooms : Map<string, GameRoom>`), modelled
as a list of rooms in insertion order, with unique ids maintained by the
`Map` semantics of `set`/`delete`. -/

/-- `GameRoomModel.getRoom`. -/
def getRoomReg (rooms : List GameRoom) (rid : String) : Option GameRoom :=
  rooms.find? fun r => r.id == rid

/-- `Map.set`: replace the entry with the same key, else append. -/
def setRoomReg (rooms : List GameRoom) (room : GameRoom) : List GameRoom :=
  if rooms.any (fun r => r.id == room.id) then
    updateFirst (fun r => r.id == room.id) (fun _ => room) rooms
  else rooms ++ [room]

/-- Look a room up by id and apply a per-room transformer to it (the
common pattern of every handler: `getRoom`, mutate, state stays in the
map). -/
def modifyRoomReg (rooms : List GameRoom) (rid : String) (f : GameRoom → GameRoom) :
    List GameRoom :=
  match getRoomReg rooms rid with
  | none => rooms
  | some r => setRoomReg rooms (f r)

/-- `GameRoomModel.createRoom` with the generated id `rid` and the
creation time `now`. -/
def createRoomReg (rooms : List GameRoom) (rid : String) (now : Int) : List GameRoom :=
  setRoomReg rooms (mkNewRoom rid now)

/-- `GameRoomModel.deleteRoom`: `Map.delete` by id. -/
def deleteRoomReg (rooms : List GameRoom) (rid : String) : List GameRoom :=
  rooms.filter fun r => !(r.id == rid)

/-! ## `GameRoomModel.cleanupRooms` -/

/-- The sweep category a room falls into, mirroring the three prioritized
`if ... continue` rules of `cleanupRooms`. -/
inductive SweepCategory where
  | finishedCat
  | inactiveCat
  | emptyCat
deriving DecidableEq

/-- `roomAgeMinutes = (now - room.createdAt) / (1000 * 60)` as an exact
rational (written with `Rat.divInt` so that the kernel can evaluate it;
see `roomAgeMinutes_eq_div`). -/
def roomAgeMinutes (now : Int) (room : GameRoom) : Rat :=
  Rat.divInt (now - room.createdAt) (1000 * 60)

theorem roomAgeMinutes_eq_div (now : Int) (room : GameRoom) :
    roomAgeMinutes now room = ((now - room.createdAt : Int) : Rat) / (1000 * 60) := by
  rw [roomAgeMinutes, Rat.divInt_eq_div]
  norm_num

/-- The rule (if any) under which one pass of `cleanupRooms` deletes a
room, with the source's priority order (finished, then inactive, then
empty; first match wins via `continue`).  `ets`, `fts`, `its` are the
`emptyRoomTimeout`, `finishedGameTimeout`, `inactiveRoomTimeout`
parameters in minutes (defaults 30, 60, 120 at the call sites). -/
def classifyRoom (ets fts its : Rat) (now : Int) (room : GameRoom) : Option SweepCategory :=
  let ageMinutes := roomAgeMinutes now room
  if room.gameState = .finished ∧ fts ≤ ageMinutes then some .finishedCat
  else if (room.gameState = .waiting ∨ room.gameState = .setup) ∧
          room.players.length = 0 ∧ its ≤ ageMinutes then some .inactiveCat
  else if room.players.length = 0 ∧ room.gameState ≠ .finished ∧ ets ≤ ageMinutes then
    some .emptyCat
  else none

/-- Return value of `cleanupRooms` plus the surviving registry. -/
structure CleanupResult where
  kept : List GameRoom
  emptyRoomsRemoved : Nat
  finishedGamesRemoved : Nat
  inactiveRoomsRemoved : Nat
deriving DecidableEq

/-- `totalRoomsRemaining` is recomputed from the registry after the
loop. -/
def CleanupResult.totalRoomsRemaining (c : CleanupResult) : Nat :=
  c.kept.length

/-- `GameRoomModel.cleanupRooms`: iterate over a snapshot of the registry,
delete each room matched by a rule and count it in that rule's
category. -/
def cleanupRooms (rooms : List GameRoom) (ets fts its : Rat) (now : Int) : CleanupResult :=
  { kept := rooms.filter fun r => (classifyRoom ets fts its now r).isNone
    emptyRoomsRemoved :=
      rooms.countP fun r => classifyRoom ets fts its now r == some .emptyCat
    finishedGamesRemoved :=
      rooms.countP fun r => classifyRoom ets fts its now r == some .finishedCat
    inactiveRoomsRemoved :=
      rooms.countP fun r => classifyRoom ets fts its now r == some .inactiveCat }

/-! ## The operations reachable from the public surface, as a transition
relation on the registry (claim C5's operation list: create room, add
seat, remove seat, submit fleet, mark ready, fire shot, restart, delete,
sweep). -/

/-- One registry operation. -/
inductive StepReg : List GameRoom → List GameRoom → Prop where
  | create (rooms : List GameRoom) (rid : String) (now : Int) :
      StepReg rooms (createRoomReg rooms rid now)
  | addPlayer (rooms : List GameRoom) (rid : String) (p : Player) :
      StepReg rooms (modifyRoomReg rooms rid fun r => (addPlayerRoom r p).1)
  | removePlayer (rooms : List GameRoom) (rid pid : String) :
      StepReg rooms (modifyRoomReg rooms rid fun r => (removePlayerRoom r pid).1)
  | submitFleet (rooms : List GameRoom) (rid uid : String) (ships : List Ship) :
      StepReg rooms (modifyRoomReg rooms rid fun r => placeShips r uid ships)
  | ready (rooms : List GameRoom) (rid uid : String) :
      StepReg rooms (modifyRoomReg rooms rid fun r => markReady r uid)
  | fire (rooms : List GameRoom) (rid uid : String) (x y : Int) :
      StepReg rooms (modifyRoomReg rooms rid fun r => (makeMove r uid x y).1)
  | restart (rooms : List GameRoom) (rid : String) :
      StepReg rooms (modifyRoomReg rooms rid restartRoom)
  | delete (rooms : List GameRoom) (rid : String) :
      StepReg rooms (deleteRoomReg rooms rid)
  | sweep (rooms : List GameRoom) (ets fts its : Rat) (now : Int) :
      StepReg rooms (cleanupRooms rooms ets fts its now).kept

/-- Registry states reachable from the empty registry. -/
inductive ReachableReg : List GameRoom → Prop where
  | init : ReachableReg []
  | step {R R' : List GameRoom} : ReachableReg R → StepReg R R' → ReachableReg R'

/-! ## Concrete fixtures -/

/-- A vertical ship of the given length at column `x`, rows `y0..`. -/
def mkShip (sid sname : String) (len : Nat) (x y0 : Int) : Ship :=
  { id := sid, name := sname, length := (len : Int),
    positions := (List.range len).map fun i => ⟨x, y0 + (i : Int)⟩,
    isDestroyed := false }

/-- A standard valid five-ship fleet. -/
def fleetStd : List Ship :=
  [mkShip "s1" "Carrier" 5 0 0, mkShip "s2" "Battleship" 4 1 0,
   mkShip "s3" "Cruiser" 3 2 0, mkShip "s4" "Submarine" 3 3 0,
   mkShip "s5" "Destroyer" 2 4 0]

/-- A four-ship fleet with lengths 5, 4, 3, 2: no second length-3 ship. -/
def fleetNoSubmarine : List Ship :=
  [mkShip "s1" "Carrier" 5 0 0, mkShip "s2" "Battleship" 4 1 0,
   mkShip "s3" "Cruiser" 3 2 0, mkShip "s5" "Destroyer" 2 4 0]

/-! ## General lemmas about the list helpers -/

theorem updateFirst_length (p : α → Bool) (f : α → α) (l : List α) :
    (updateFirst p f l).length = l.length := by
  induction l with
  | nil => rfl
  | cons a rest ih =>
    by_cases h : p a = true <;> simp [updateFirst, h, ih]

theorem updateFirst_append (p : α → Bool) (f : α → α) (l1 l2 : List α) (a : α)
    (h1 : ∀ x ∈ l1, p x = false) (ha : p a = true) :
    updateFirst p f (l1 ++ a :: l2) = l1 ++ f a :: l2 := by
  induction l1 with
  | nil => simp [updateFirst, ha]
  | cons b rest ih =>
    have hb : p b = false := h1 b (by simp)
    simp only [List.cons_append, updateFirst, hb]
    simp only [Bool.false_eq_true, if_false, List.cons.injEq, true_and]
    exact ih fun x hx => h1 x (by simp [hx])

theorem updateFirst_map (p : α → Bool) (f : α → α) (g : α → β) (l : List α)
    (h : ∀ x, g (f x) = g x) : (updateFirst p f l).map g = l.map g := by
  induction l with
  | nil => rfl
  | cons a rest ih =>
    by_cases hp : p a = true <;> simp [updateFirst, hp, ih, h]

theorem mem_updateFirst_of_find? {p : α → Bool} {f : α → α} {l : List α} {a : α}
    (h : l.find? p = some a) : f a ∈ updateFirst p f l := by
  obtain ⟨hpa, l1, l2, rfl, hl1⟩ := List.find?_eq_some.mp h
  rw [updateFirst_append p f l1 l2 a (fun x hx => by simpa using hl1 x hx) hpa]
  simp

theorem find?_updateFirst_of_pred {p : α → Bool} {f : α → α} {l : List α} {a : α}
    (h : l.find? p = some a) (hfa : p (f a) = true) :
    (updateFirst p f l).find? p = some (f a) := by
  obtain ⟨hpa, l1, l2, rfl, hl1⟩ := List.find?_eq_some.mp h
  have hl1' : ∀ x ∈ l1, p x = false := fun x hx => by simpa using hl1 x hx
  have hnone : l1.find? p = none := List.find?_eq_none.mpr fun x hx => by simp [hl1' x hx]
  rw [updateFirst_append p f l1 l2 a hl1' hpa]
  rw [List.find?_append, hnone, Option.none_or, List.find?_cons_of_pos _ hfa]

/-! ## Sweep lemmas -/

theorem roomAgeMinutes_nonneg {now : Int} {r : GameRoom} (h : r.createdAt ≤ now) :
    0 ≤ roomAgeMinutes now r := by
  rw [roomAgeMinutes_eq_div]
  apply div_nonneg
  · exact_mod_cast Int.sub_nonneg.mpr h
  · norm_num

/-- With all thresholds at 0 and a room created no later than `now`, the
rule chain of `cleanupRooms` reduces to a pure phase/seat analysis. -/
theorem classifyRoom_zero (now : Int) (r : GameRoom) (h : r.createdAt ≤ now) :
    classifyRoom 0 0 0 now r =
      if r.gameState = .finished then some .finishedCat
      else if r.players.length = 0 then
        (if r.gameState = .playing then some .emptyCat else some .inactiveCat)
      else none := by
  have hage : (0 : Rat) ≤ roomAgeMinutes now r := roomAgeMinutes_nonneg h
  unfold classifyRoom
  cases hgs : r.gameState <;> by_cases hp : r.players.length = 0 <;> simp [hgs, hp, hage]

theorem classifyRoom_playing_seated (ets fts its : Rat) (now : Int) (r : GameRoom)
    (hplay : r.gameState = .playing) (hseat : r.players ≠ []) :
    classifyRoom ets fts its now r = none := by
  have hlen : r.players.length ≠ 0 := by simpa using hseat
  unfold classifyRoom
  simp [hplay, hlen]

/-- Every room of the snapshot is either kept or deleted under exactly one
category (abstract partition lemma for any classifier). -/
theorem countP_classify_partition (c : α → Option SweepCategory) (l : List α) :
    l.countP (fun r => c r == some .finishedCat) +
      l.countP (fun r => c r == some .inactiveCat) +
      l.countP (fun r => c r == some .emptyCat) +
      (l.filter fun r => (c r).isNone).length = l.length := by
  induction l with
  | nil => rfl
  | cons a rest ih =>
    rcases hc : c a with _ | cat
    · simp [List.countP_cons, List.filter_cons, hc]
      omega
    · cases cat <;> simp [List.countP_cons, List.filter_cons, hc] <;> omega

/-! ## Claim C1 -/

/-- C1, code evaluated at the failing input: the claim states that every
fleet accepted by `validateShipPlacement` contains the five canonical
kinds (lengths 5, 4, 3, 3, 2) exactly once each, but the code accepts a
fleet of only four ships with a single length-3 ship, because
`validateRequiredShips` counts ships by length and checks `count >= 1`
for the Cruiser and the Submarine against the same length-3 bucket. -/
theorem validateShipPlacement_accepts_fleet_without_submarine :
    validateShipPlacement fleetNoSubmarine 10 = true ∧
      fleetNoSubmarine.countP (fun s => s.length == 3) = 1 ∧
      fleetNoSubmarine.length = 4 := by
  refine ⟨by decide, by decide, by decide⟩

/-! ## Claim C6 -/

/-- C6 counterexample: the claim says a Playing session is never deleted
by the sweep regardless of its seat count, but a Playing session with
zero seats is deleted by the third (empty-room) rule, whose guard is
`players.length === 0 && gameState !== "finished"`. -/
def playingEmptyRoom : GameRoom :=
  { mkNewRoom "P1" 0 with gameState := .playing }

/-- C6 counterexample (see `playingEmptyRoom`): a sweep with all
thresholds at 0 deletes an aged Playing session that has zero seats. -/
theorem cleanup_deletes_empty_playing_room :
    playingEmptyRoom.gameState = .playing ∧
      (cleanupRooms [playingEmptyRoom] 0 0 0 0).kept = [] ∧
      (cleanupRooms [playingEmptyRoom] 0 0 0 0).emptyRoomsRemoved = 1 := by
  refine ⟨rfl, by decide, by decide⟩

/-- C6 (amended): a reclamation sweep never deletes a session in phase
Playing that has at least one seat, regardless of its age and of the
threshold values passed to the sweep. -/
theorem cleanup_never_deletes_seated_playing_room (ets fts its : Rat) (now : Int)
    (rooms : List GameRoom) (r : GameRoom) (hmem : r ∈ rooms)
    (hplay : r.gameState = .playing) (hseat : r.players ≠ []) :
    r ∈ (cleanupRooms rooms ets fts its now).kept := by
  unfold cleanupRooms
  refine List.mem_filter.mpr ⟨hmem, ?_⟩
  rw [classifyRoom_playing_seated ets fts its now r hplay hseat]
  rfl

/-- Witness for the amended C6 at a concrete sweep. -/
def seatedPlayingRoom : GameRoom :=
  { mkNewRoom "P2" 0 with
      gameState := .playing
      players := [mkJoinPlayer "pa" "ua" "Alice", mkJoinPlayer "pb" "ub" "Bob"]
      currentTurn := some "pa" }

theorem cleanup_never_deletes_seated_playing_room_witness :
    seatedPlayingRoom ∈ (cleanupRooms [seatedPlayingRoom] 0 0 0 1000000).kept :=
  cleanup_never_deletes_seated_playing_room 0 0 0 1000000 [seatedPlayingRoom]
    seatedPlayingRoom (by simp) (by rfl) (by decide)

/-! ## Claim C7 -/

/-- C7: a reclamation sweep called with all three thresholds equal to 0
(on a registry whose rooms were created no later than `now`) deletes
every session in phase Finished, deletes every zero-seat session in
phase Waiting or Setup, keeps (unchanged) every session with at least
one seat in phase Playing, and the three prioritized rules count each
deleted session in exactly one category: Finished sessions under
`finishedGamesRemoved`, zero-seat Waiting/Setup sessions under
`inactiveRoomsRemoved`, the remaining zero-seat (Playing) sessions under
`emptyRoomsRemoved`, with the three counts plus the remaining total
partitioning the registry. -/
theorem cleanup_zero_thresholds (rooms : List GameRoom) (now : Int)
    (hage : ∀ r ∈ rooms, r.createdAt ≤ now) :
    (∀ r ∈ rooms, r.gameState = .finished →
        r ∉ (cleanupRooms rooms 0 0 0 now).kept) ∧
    (∀ r ∈ rooms, (r.gameState = .waiting ∨ r.gameState = .setup) → r.players = [] →
        r ∉ (cleanupRooms rooms 0 0 0 now).kept) ∧
    (∀ r ∈ rooms, r.gameState = .playing → r.players ≠ [] →
        r ∈ (cleanupRooms rooms 0 0 0 now).kept) ∧
    (cleanupRooms rooms 0 0 0 now).finishedGamesRemoved =
      rooms.countP (fun r => r.gameState == .finished) ∧
    (cleanupRooms rooms 0 0 0 now).inactiveRoomsRemoved =
      rooms.countP (fun r =>
        (r.gameState == .waiting || r.gameState == .setup) && r.players.length == 0) ∧
    (cleanupRooms rooms 0 0 0 now).emptyRoomsRemoved =
      rooms.countP (fun r => r.gameState == .playing && r.players.length == 0) ∧
    (cleanupRooms rooms 0 0 0 now).finishedGamesRemoved +
      (cleanupRooms rooms 0 0 0 now).inactiveRoomsRemoved +
      (cleanupRooms rooms 0 0 0 now).emptyRoomsRemoved +
      (cleanupRooms rooms 0 0 0 now).totalRoomsRemaining = rooms.length := by
  refine ⟨?_, ?_, ?_, ?_, ?_, ?_, ?_⟩
  · intro r hr hfin hmem
    have := (List.mem_filter.mp hmem).2
    rw [classifyRoom_zero now r (hage r hr)] at this
    simp [hfin] at this
  · intro r hr hws hempty hmem
    have := (List.mem_filter.mp hmem).2
    rw [classifyRoom_zero now r (hage r hr)] at this
    rcases hws with h1 | h1 <;> simp [h1, hempty] at this
  · intro r hr hplay hseat
    exact cleanup_never_deletes_seated_playing_room 0 0 0 now rooms r hr hplay hseat
  · unfold cleanupRooms
    refine List.countP_congr fun r hr => ?_
    rw [classifyRoom_zero now r (hage r hr)]
    cases hgs : r.gameState <;> by_cases hp : r.players.length = 0 <;> simp [hgs, hp]
  · unfold cleanupRooms
    refine List.countP_congr fun r hr => ?_
    rw [classifyRoom_zero now r (hage r hr)]
    cases hgs : r.gameState <;> by_cases hp : r.players.length = 0 <;> simp [hgs, hp]
  · unfold cleanupRooms
    refine List.countP_congr fun r hr => ?_
    rw [classifyRoom_zero now r (hage r hr)]
    cases hgs : r.gameState <;> by_cases hp : r.players.length = 0 <;> simp [hgs, hp]
  · have h := countP_classify_partition (classifyRoom 0 0 0 now) rooms
    simpa [cleanupRooms, CleanupResult.totalRoomsRemaining] using h

def finRoomC7 : GameRoom := { mkNewRoom "F7" 2 with gameState := .finished }

def waitRoomC7 : GameRoom := mkNewRoom "W7" 3

def playRoomC7 : GameRoom :=
  { mkNewRoom "G7" 1 with
      gameState := .playing
      players := [mkJoinPlayer "p7a" "u7a" "Ann", mkJoinPlayer "p7b" "u7b" "Ben"]
      currentTurn := some "p7a" }

def roomsC7 : List GameRoom := [finRoomC7, waitRoomC7, playRoomC7]

/-- Witness for C7 at a concrete three-room registry. -/
theorem cleanup_zero_thresholds_witness :
    finRoomC7 ∉ (cleanupRooms roomsC7 0 0 0 5).kept ∧
      waitRoomC7 ∉ (cleanupRooms roomsC7 0 0 0 5).kept ∧
      playRoomC7 ∈ (cleanupRooms roomsC7 0 0 0 5).kept ∧
      (cleanupRooms roomsC7 0 0 0 5).finishedGamesRemoved = 1 := by
  have h := cleanup_zero_thresholds roomsC7 5 (by decide)
  refine ⟨h.1 finRoomC7 (by decide) rfl, ?_, ?_, ?_⟩
  · exact h.2.1 waitRoomC7 (by decide) (Or.inl rfl) rfl
  · exact h.2.2.1 playRoomC7 (by decide) rfl (by decide)
  · rw [h.2.2.2.1]
    decide

/-! ## Claim C9 -/

/-- C9 (amended): a further join by an identity that already occupies a
seat is rejected only when the session is full or when the freshly
generated seat id happens to collide with an existing seat id
(`addPlayerToRoom` compares seat ids, not identities, and the `join-room`
handler generates a new seat id per request); a second join by the same
identity into a one-seat session therefore succeeds and creates a second
seat owned by that identity. -/
theorem addPlayerRoom_duplicate_identity (r : GameRoom) (q pNew : Player) (u : String)
    (hq : r.players = [q]) (hqu : q.userId = u) (hpu : pNew.userId = u) :
    (pNew.id ≠ q.id →
        (addPlayerRoom r pNew).2 = true ∧
        (addPlayerRoom r pNew).1.players = [q, pNew] ∧
        ∀ s ∈ (addPlayerRoom r pNew).1.players, s.userId = u) ∧
    (pNew.id = q.id → addPlayerRoom r pNew = (r, false)) := by
  constructor
  · intro hne
    have hqid : (q.id == pNew.id) = false := beq_eq_false_iff_ne.mpr fun h => hne h.symm
    unfold addPlayerRoom
    rw [hq]
    rw [if_neg (by simp)]
    rw [if_neg (by simp [List.find?, hqid])]
    refine ⟨rfl, rfl, ?_⟩
    intro s hs
    simp only [List.singleton_append, List.mem_cons, List.mem_singleton,
      List.not_mem_nil, or_false] at hs
    rcases hs with rfl | rfl
    · exact hqu
    · exact hpu
  · intro heq
    unfold addPlayerRoom
    rw [hq]
    rw [if_neg (by simp)]
    rw [if_pos (by simp [List.find?, heq])]

/-- Concrete one-seat room for the C9 counterexample. -/
def roomC9 : GameRoom :=
  { mkNewRoom "R9" 0 with players := [mkJoinPlayer "p9a" "u9" "Sam"] }

/-- C9 counterexample: the claim says a join by an identity that already
occupies a seat is rejected with no mutation, but the join of identity
`u9` into `roomC9` (which it already occupies) succeeds, creates a
second seat owned by `u9`, and even advances the phase to Setup. -/
theorem join_same_identity_creates_second_seat :
    (addPlayerRoom roomC9 (mkJoinPlayer "p9b" "u9" "Sam")).2 = true ∧
      ((addPlayerRoom roomC9 (mkJoinPlayer "p9b" "u9" "Sam")).1.players.map
        Player.userId) = ["u9", "u9"] ∧
      (addPlayerRoom roomC9 (mkJoinPlayer "p9b" "u9" "Sam")).1.gameState = .setup := by
  refine ⟨by decide, by decide, by decide⟩

/-- Witness for the amended C9. -/
theorem addPlayerRoom_duplicate_identity_witness :
    ((addPlayerRoom roomC9 (mkJoinPlayer "p9c" "u9" "Sam")).2 = true ∧
      (addPlayerRoom roomC9 (mkJoinPlayer "p9c" "u9" "Sam")).1.players =
        [mkJoinPlayer "p9a" "u9" "Sam", mkJoinPlayer "p9c" "u9" "Sam"] ∧
      ∀ s ∈ (addPlayerRoom roomC9 (mkJoinPlayer "p9c" "u9" "Sam")).1.players,
        s.userId = "u9") ∧
    addPlayerRoom roomC9 { mkJoinPlayer "p9a" "u9" "Sam" with name := "Sam" } =
      (roomC9, false) := by
  have h := addPlayerRoom_duplicate_identity roomC9 (mkJoinPlayer "p9a" "u9" "Sam")
    (mkJoinPlayer "p9c" "u9" "Sam") "u9" rfl rfl rfl
  have h2 := addPlayerRoom_duplicate_identity roomC9 (mkJoinPlayer "p9a" "u9" "Sam")
    { mkJoinPlayer "p9a" "u9" "Sam" with name := "Sam" } "u9" rfl rfl rfl
  exact ⟨h.1 (by decide), h2.2 rfl⟩

/-! ## Claim C8 -/

/-- C8 (amended): the `place-ships` and `player-ready` handlers do not
check the session phase.  For any session in any phase, a seated caller's
`place-ships` with a fleet passing `validateShipPlacement` stores that
fleet on the caller's seat, and a seated caller's `player-ready` sets the
caller's ready flag (possibly re-triggering the Playing transition), so
both actions mutate session state outside of phase Setup as well. -/
theorem placeShips_markReady_ignore_phase (r : GameRoom) (u : String)
    (ships : List Ship) (p : Player)
    (hp : r.players.find? (fun q => q.userId == u) = some p) :
    (validateShipPlacement ships 10 = true →
        playerOf (placeShips r u ships) u = some { p with ships := ships }) ∧
    playerOf (markReady r u) u = some { p with isReady := true } := by
  have hpu : (p.userId == u) = true := (List.find?_eq_some.mp hp).1
  constructor
  · intro hv
    unfold placeShips
    rw [if_pos hv, hp]
    exact find?_updateFirst_of_pred hp (by simpa using hpu)
  · have hfind :
        (setReadyFirst u r.players).find? (fun q => q.userId == u) =
          some { p with isReady := true } :=
      find?_updateFirst_of_pred hp (by simpa using hpu)
    unfold markReady playerOf
    rw [if_pos (by simp [hp])]
    split <;> exact hfind

/-- A Playing room with two seated players holding standard fleets, used
for the C8 counterexample. -/
def roomC8 : GameRoom :=
  { mkNewRoom "R8" 0 with
      gameState := .playing
      players :=
        [{ mkJoinPlayer "p8a" "u8a" "Ana" with ships := fleetStd, isReady := true },
         { mkJoinPlayer "p8b" "u8b" "Max" with ships := fleetStd, isReady := true }]
      currentTurn := some "p8a" }

/-- A Finished room with two ready, fleet-holding players, used for the
C8 counterexample's `player-ready` half. -/
def roomC8fin : GameRoom := { roomC8 with gameState := .finished, winner := some "p8a" }

/-- An alternative valid fleet (every ship shifted down by 5 rows). -/
def fleetShifted : List Ship :=
  [mkShip "t1" "Carrier" 5 0 5, mkShip "t2" "Battleship" 4 1 5,
   mkShip "t3" "Cruiser" 3 2 5, mkShip "t4" "Submarine" 3 3 5,
   mkShip "t5" "Destroyer" 2 4 5]

/-- C8 counterexample: the claim says `place-ships` and `player-ready`
leave the session unchanged outside phase Setup, but `place-ships`
replaces a seat's fleet while the phase is Playing, and `player-ready` on
a Finished session flips its phase back to Playing. -/
theorem placeShips_mutates_in_playing_phase :
    roomC8.gameState = .playing ∧
      placeShips roomC8 "u8a" fleetShifted ≠ roomC8 ∧
      (playerOf (placeShips roomC8 "u8a" fleetShifted) "u8a").map Player.ships =
        some fleetShifted ∧
      roomC8fin.gameState = .finished ∧
      (markReady roomC8fin "u8b").gameState = .playing := by
  refine ⟨rfl, by decide, by decide, rfl, by decide⟩

/-- Witness for the amended C8 at a concrete Playing-phase room. -/
theorem placeShips_markReady_ignore_phase_witness :
    (playerOf (placeShips roomC8 "u8b" fleetShifted) "u8b").map Player.ships =
        some fleetShifted ∧
      (playerOf (markReady roomC8 "u8b") "u8b").map Player.isReady = some true := by
  have h := placeShips_markReady_ignore_phase roomC8 "u8b" fleetShifted
    { mkJoinPlayer "p8b" "u8b" "Max" with ships := fleetStd, isReady := true } (by decide)
  have h1 := h.1 (by decide)
  rw [h1, h.2]
  exact ⟨rfl, rfl⟩

/-! ## Claim C3 -/

/-- C3: a `make-move` event that is rejected for any reason (wrong phase,
not seated, off-turn, missing opponent, repeat target, out-of-range)
leaves the entire session state unchanged, and an accepted shot that does
not end the game switches the turn to the opponent's seat id (leaving the
phase unchanged). -/
theorem makeMove_reject_unchanged_else_turn_switch (r : GameRoom) (u : String)
    (x y : Int) :
    ((makeMove r u x y).2 = .rejected → (makeMove r u x y).1 = r) ∧
    (∀ mr : MoveResult, (makeMove r u x y).2 = .moved mr → mr.gameEnded ≠ some true →
      ∃ p o : Player, playerOf r u = some p ∧ opponentOf r p = some o ∧
        (makeMove r u x y).1.currentTurn = some o.id ∧
        (makeMove r u x y).1.gameState = r.gameState ∧
        (makeMove r u x y).1.winner = r.winner) := by
  unfold makeMove
  split
  · exact ⟨fun _ => rfl, fun mr hmr => by simp at hmr⟩
  · split
    · exact ⟨fun _ => rfl, fun mr hmr => by simp at hmr⟩
    · rename_i p hfind
      split
      · exact ⟨fun _ => rfl, fun mr hmr => by simp at hmr⟩
      · split
        · exact ⟨fun _ => rfl, fun mr hmr => by simp at hmr⟩
        · rename_i o hopp
          split
          · exact ⟨fun _ => rfl, fun mr hmr => by simp at hmr⟩
          · split
            · exact ⟨fun _ => rfl, fun mr hmr => by simp at hmr⟩
            · split
              case isTrue hge =>
                refine ⟨fun hc => by simp at hc, fun mr hmr hne => ?_⟩
                simp only [MoveOutcome.moved.injEq] at hmr
                subst hmr
                exact absurd hge hne
              case isFalse hge =>
                refine ⟨fun hc => by simp at hc, fun mr hmr hne => ?_⟩
                exact ⟨p, o, hfind, hopp, rfl, rfl, rfl⟩

/-- A Playing room used for the C3 witness: `ua` to move against `ub`. -/
def roomC3 : GameRoom :=
  { mkNewRoom "R3" 0 with
      gameState := .playing
      players :=
        [{ mkJoinPlayer "p3a" "u3a" "Ada" with ships := fleetStd, isReady := true },
         { mkJoinPlayer "p3b" "u3b" "Bob" with ships := fleetStd, isReady := true }]
      currentTurn := some "p3a" }

/-- Witness for C3: an off-turn shot by `u3b` is rejected and changes
nothing; an accepted miss by `u3a` at (9,9) switches the turn to `p3b`. -/
theorem makeMove_reject_unchanged_else_turn_switch_witness :
    (makeMove roomC3 "u3b" 0 0).1 = roomC3 ∧
      ∃ p o : Player, playerOf roomC3 "u3a" = some p ∧ opponentOf roomC3 p = some o ∧
        (makeMove roomC3 "u3a" 9 9).1.currentTurn = some o.id ∧
        (makeMove roomC3 "u3a" 9 9).1.gameState = roomC3.gameState ∧
        (makeMove roomC3 "u3a" 9 9).1.winner = roomC3.winner := by
  constructor
  · exact (makeMove_reject_unchanged_else_turn_switch roomC3 "u3b" 0 0).1 (by decide)
  · exact (makeMove_reject_unchanged_else_turn_switch roomC3 "u3a" 9 9).2
      ⟨false, none, none, none⟩ (by decide) (by decide)

/-! ## Claim C10 -/

/-- C10: handling a `make-move` event never performs an out-of-bounds
array access for any integer coordinates: the repeat-target check guards
row existence before indexing the shot grids (a row outside the grid
yields the falsy `undefined`, modelled by `none`, so the check is simply
`false`), and the bounds rejection precedes the call to `processMove`, so
`processMove` — and with it the `targetBoard[x][y]` write — is only
reached with `x` and `y` in `[0,10)²`. -/
theorem makeMove_bounds_guard :
    (∀ (r : GameRoom) (u : String) (x y : Int) (mr : MoveResult),
        (makeMove r u x y).2 = .moved mr → 0 ≤ x ∧ x < 10 ∧ 0 ≤ y ∧ y < 10) ∧
    (∀ (g : Grid) (x y : Int), x < 0 ∨ (g.length : Int) ≤ x → gridTruthy g x y = false) := by
  constructor
  · intro r u x y mr
    unfold makeMove
    split
    · intro hmr; simp at hmr
    · split
      · intro hmr; simp at hmr
      · split
        · intro hmr; simp at hmr
        · split
          · intro hmr; simp at hmr
          · split
            · intro hmr; simp at hmr
            · split
              · intro hmr; simp at hmr
              · case isFalse hbounds =>
                  split <;> (intro _; exact not_not.mp hbounds)
  · intro g x y hx
    unfold gridTruthy
    rcases hx with hx | hx
    · rw [if_neg (by omega)]
    · rw [if_pos (by omega)]

      have : g.get? x.toNat = none := by
        rw [List.get?_eq_none]
        omega
      rw [this]

/-- Witness for C10: a concrete accepted shot is in range, and the
repeat-target check at a negative row is false on a standard grid. -/
theorem makeMove_bounds_guard_witness :
    ((0:Int) ≤ 9 ∧ (9:Int) < 10 ∧ (0:Int) ≤ 9 ∧ (9:Int) < 10) ∧
      gridTruthy (falseGrid 10) (-3) 4 = false := by
  refine ⟨?_, ?_⟩
  · exact makeMove_bounds_guard.1 roomC3 "u3a" 9 9 ⟨false, none, none, none⟩ (by decide)
  · exact makeMove_bounds_guard.2 (falseGrid 10) (-3) 4 (Or.inl (by norm_num))

/-! ## Claim C2: board-scan lemmas -/

/-- A coordinate is produced by the `processMove` board scan iff the board
cell there carries the scanned ship id. -/
theorem any_collectHitPositions_iff (b : Board) (sid : String) (pos : Pos) :
    ((collectHitPositions b sid).any fun hitPos => positionsEqual pos hitPos) = true ↔
      lookupCell b pos.x pos.y = some sid := by
  rw [List.any_eq_true]
  constructor
  · rintro ⟨hp, hmem, hpe⟩
    unfold collectHitPositions at hmem
    rw [List.mem_flatMap] at hmem
    obtain ⟨i, hi, hmem2⟩ := hmem
    rw [List.mem_range] at hi
    rcases hrow : b.get? i with _ | row
    · rw [hrow] at hmem2
      simp at hmem2
    · rw [hrow] at hmem2
      rw [List.mem_filterMap] at hmem2
      obtain ⟨j, hj, hcond⟩ := hmem2
      rw [List.mem_range] at hj
      by_cases hc : row.get? j = some (some sid)
      · rw [if_pos hc] at hcond
        have hhp : hp = ⟨(i : Int), (j : Int)⟩ := by
          injection hcond with h
          exact h.symm
        subst hhp
        unfold positionsEqual at hpe
        rw [Bool.and_eq_true, beq_iff_eq, beq_iff_eq] at hpe
        have hpx : pos.x = (i : Int) := by simpa using hpe.1
        have hpy : pos.y = (j : Int) := by simpa using hpe.2
        unfold lookupCell
        rw [if_pos ⟨by omega, by omega⟩]
        have hxi : pos.x.toNat = i := by omega
        have hyj : pos.y.toNat = j := by omega
        simp only [hxi, hyj, hrow, hc]
      · rw [if_neg hc] at hcond
        simp at hcond
  · intro hlook
    unfold lookupCell at hlook
    by_cases hnn : 0 ≤ pos.x ∧ 0 ≤ pos.y
    · rw [if_pos hnn] at hlook
      rcases hrow : b.get? pos.x.toNat with _ | row
      · simp only [hrow] at hlook
        simp at hlook
      · simp only [hrow] at hlook
        rcases hcell : row.get? pos.y.toNat with _ | c
        · simp only [hcell] at hlook
          simp at hlook
        · simp only [hcell] at hlook
          refine ⟨⟨(pos.x.toNat : Int), (pos.y.toNat : Int)⟩, ?_, ?_⟩
          · unfold collectHitPositions
            rw [List.mem_flatMap]
            refine ⟨pos.x.toNat, List.mem_range.mpr ?_, ?_⟩
            · exact (List.get?_eq_some.mp hrow).1
            · rw [hrow, List.mem_filterMap]
              refine ⟨pos.y.toNat, List.mem_range.mpr (List.get?_eq_some.mp hcell).1, ?_⟩
              rw [if_pos (by rw [hcell, hlook])]
          · unfold positionsEqual
            rw [Bool.and_eq_true, beq_iff_eq, beq_iff_eq]
            exact ⟨(Int.toNat_of_nonneg hnn.1).symm, (Int.toNat_of_nonneg hnn.2).symm⟩
    · rw [if_neg hnn] at hlook
      simp at hlook

/-- `Utils.isShipDestroyed` applied to the board scan of `processMove`:
the ship is reported destroyed iff every one of its cells carries its id
on the board. -/
theorem isShipDestroyed_collect (b : Board) (sid : String) (s : Ship) :
    isShipDestroyed s (collectHitPositions b sid) =
      s.positions.all fun q => lookupCell b q.x q.y == some sid := by
  unfold isShipDestroyed
  rw [Bool.eq_iff_iff, List.all_eq_true, List.all_eq_true]
  constructor
  · intro h q hq
    rw [beq_iff_eq]
    exact (any_collectHitPositions_iff b sid q).mp (h q hq)
  · intro h q hq
    exact (any_collectHitPositions_iff b sid q).mpr (beq_iff_eq.mp (h q hq))

/-! ## Claim C2: main theorem -/

/-- C2 (amended): for a session in phase Playing whose opponent fleet has
at least one ship not already marked destroyed, an accepted shot by the
seat whose turn it is (in-range, not previously targeted) sets the phase
to Finished and the winner to the firing seat's id exactly when, after
resolution, every ship in the opponent's fleet is marked destroyed; and
the resolution leaves the ship at the shot cell marked destroyed iff it
was already marked destroyed or every one of its cells (including the
current shot) is recorded as hit on the opponent's board.  (Without the
not-already-destroyed hypothesis the "exactly when" direction fails: a
miss never finishes the game even if every opponent ship carries a
pre-set destroyed flag.) -/
theorem makeMove_finished_iff_all_destroyed (r : GameRoom) (u : String) (x y : Int)
    (p o : Player)
    (hfind : playerOf r u = some p)
    (hplay : r.gameState = .playing)
    (hturn : r.currentTurn = some p.id)
    (hopp : opponentOf r p = some o)
    (hh : gridTruthy p.hits x y = false)
    (hm : gridTruthy p.misses x y = false)
    (hx0 : 0 ≤ x) (hx1 : x < 10) (hy0 : 0 ≤ y) (hy1 : y < 10)
    (halive : ∃ s ∈ o.ships, s.isDestroyed = false) :
    (((makeMove r u x y).1.gameState = .finished ∧
        (makeMove r u x y).1.winner = some p.id) ↔
      ∀ s ∈ (processMove o.board o.ships x y).ships, s.isDestroyed = true) ∧
    (∀ s0 : Ship, findShipAtPosition o.ships ⟨x, y⟩ = some s0 →
      findShipAtPosition (processMove o.board o.ships x y).ships ⟨x, y⟩ =
        some { s0 with isDestroyed := (s0.isDestroyed ||
          s0.positions.all fun q =>
            lookupCell (setCell o.board x y (some s0.id)) q.x q.y == some s0.id) }) := by
  have hmm :
      makeMove r u x y =
        if (processMove o.board o.ships x y).result.gameEnded = some true then
          ({ r with players := playersAfter r u p o x y,
                    gameState := .finished, winner := some p.id },
           .moved (processMove o.board o.ships x y).result)
        else
          ({ r with players := playersAfter r u p o x y,
                    currentTurn := some o.id },
           .moved (processMove o.board o.ships x y).result) := by
    unfold makeMove
    rw [if_neg (by simp [hplay])]
    simp only [hfind]
    rw [if_neg (by simp [hturn])]
    simp only [hopp]
    rw [if_neg (by simp [hh, hm])]
    rw [if_neg (not_not_intro ⟨hx0, hx1, hy0, hy1⟩)]
  rcases hship : findShipAtPosition o.ships ⟨x, y⟩ with _ | s0
  · -- miss: the shot hits open water
    have hpm :
        processMove o.board o.ships x y =
          { board := setCell o.board x y (some "miss"), ships := o.ships,
            result := { hit := false, shipDestroyed := none, gameEnded := none,
                        winner := none } } := by
      unfold processMove
      simp only [hship]
    constructor
    · rw [hmm, hpm]
      rw [if_neg (by simp)]
      refine iff_of_false ?_ ?_
      · intro hc
        rw [hplay] at hc
        simp at hc
      · intro hall
        obtain ⟨s, hs, hsd⟩ := halive
        rw [hall s hs] at hsd
        simp at hsd
    · intro s0 h
      exact absurd h (by simp)
  · -- hit
    have hpred : (s0.positions.any fun pos => positionsEqual pos ⟨x, y⟩) = true :=
      (List.find?_eq_some.mp hship).1
    have hgeq :
        (processMove o.board o.ships x y).result.gameEnded =
          some (areAllShipsDestroyed (processMove o.board o.ships x y).ships) := by
      unfold processMove
      simp only [hship]
    have hships :
        (processMove o.board o.ships x y).ships =
          if isShipDestroyed s0
              (collectHitPositions (setCell o.board x y (some s0.id)) s0.id) then
            updateFirst (fun ship => ship.positions.any fun pos => positionsEqual pos ⟨x, y⟩)
              (fun ship => { ship with isDestroyed := true }) o.ships
          else o.ships := by
      unfold processMove
      simp only [hship]
    constructor
    · by_cases hge :
        areAllShipsDestroyed (processMove o.board o.ships x y).ships = true
      · rw [hmm, hgeq, hge]
        rw [if_pos rfl]
        refine iff_of_true ⟨rfl, rfl⟩ ?_
        intro s hs
        exact List.all_eq_true.mp hge s hs
      · rw [hmm, hgeq]
        rw [if_neg (by simpa using hge)]
        refine iff_of_false ?_ ?_
        · intro hc
          rw [hplay] at hc
          simp at hc
        · intro hall
          exact hge (List.all_eq_true.mpr hall)
    · intro s0' h
      obtain rfl : s0' = s0 := by
        injection h with h'
        exact h'.symm
      have hcollect := isShipDestroyed_collect (setCell o.board x y (some s0'.id)) s0'.id s0'
      by_cases hsd :
        isShipDestroyed s0'
          (collectHitPositions (setCell o.board x y (some s0'.id)) s0'.id) = true
      · have hall :
            (s0'.positions.all fun q =>
              lookupCell (setCell o.board x y (some s0'.id)) q.x q.y == some s0'.id) = true := by
          rw [← hcollect]
          exact hsd
        rw [hships, if_pos hsd, hall, Bool.or_true]
        unfold findShipAtPosition at hship ⊢
        exact find?_updateFirst_of_pred hship (by simpa using hpred)
      · have hall :
            (s0'.positions.all fun q =>
              lookupCell (setCell o.board x y (some s0'.id)) q.x q.y == some s0'.id) = false := by
          rw [← hcollect]
          exact Bool.not_eq_true _ ▸ (eq_false_of_ne_true hsd)
        rw [hships, if_neg hsd, hall, Bool.or_false]
        exact hship

/-- The standard fleet with every destroyed flag pre-set (the handlers
store client-supplied fleets verbatim; `validateShipPlacement` never
inspects `isDestroyed`). -/
def fleetPre : List Ship := fleetStd.map fun s => { s with isDestroyed := true }

/-- A Playing room whose opponent fleet is entirely pre-marked destroyed,
for the C2 counterexample. -/
def roomC2 : GameRoom :=
  { mkNewRoom "R2" 0 with
      gameState := .playing
      players :=
        [{ mkJoinPlayer "p2a" "u2a" "Eve" with ships := fleetStd, isReady := true },
         { mkJoinPlayer "p2b" "u2b" "Oz" with ships := fleetPre, isReady := true }]
      currentTurn := some "p2a" }

/-- C2 counterexample: the claim's "exactly when" fails as stated — an
accepted shot that misses leaves the phase Playing and the winner unset
even though (after resolution) every ship in the opponent's fleet is
marked destroyed, because the game-end check only runs on the hit path
and the destroyed flags were stored as submitted. -/
theorem miss_leaves_predestroyed_fleet_unfinished :
    (makeMove roomC2 "u2a" 9 9).2 =
        .moved { hit := false, shipDestroyed := none, gameEnded := none, winner := none } ∧
      (playerOf (makeMove roomC2 "u2a" 9 9).1 "u2b").map
          (fun q => q.ships.all fun s => s.isDestroyed) = some true ∧
      (makeMove roomC2 "u2a" 9 9).1.gameState = .playing ∧
      (makeMove roomC2 "u2a" 9 9).1.winner = none := by
  refine ⟨by decide, by decide, by decide, by decide⟩

/-- Caller seat of the C2 witness room. -/
def pC2wa : Player :=
  { mkJoinPlayer "p2wa" "u2wa" "Kai" with ships := fleetStd, isReady := true }

/-- Opponent seat of the C2 witness room: one two-cell ship, one cell of
which is already recorded as hit on the board. -/
def pC2wb : Player :=
  { mkJoinPlayer "p2wb" "u2wb" "Lu" with
      ships := [mkShip "w5" "Destroyer" 2 4 0]
      isReady := true
      board := setCell (initBoard 10) 4 0 (some "w5") }

/-- C2 witness room: the shot at (4,1) destroys the last ship. -/
def roomC2w : GameRoom :=
  { mkNewRoom "W2" 0 with
      gameState := .playing
      players := [pC2wa, pC2wb]
      currentTurn := some "p2wa" }

/-- Witness for the amended C2: the final destroying shot finishes the
session with the firing seat as winner. -/
theorem makeMove_finished_iff_all_destroyed_witness :
    (makeMove roomC2w "u2wa" 4 1).1.gameState = .finished ∧
      (makeMove roomC2w "u2wa" 4 1).1.winner = some "p2wa" := by
  have h := makeMove_finished_iff_all_destroyed roomC2w "u2wa" 4 1 pC2wa pC2wb
    (by decide) rfl (by decide) (by decide) (by decide) (by decide)
    (by decide) (by decide) (by decide) (by decide)
    ⟨mkShip "w5" "Destroyer" 2 4 0, by decide, by decide⟩
  have h2 := h.1.mpr (by decide)
  exact ⟨h2.1, h2.2⟩

/-! ## Claim C4: lemmas about the ready update -/

theorem mem_updateFirst {p : α → Bool} {f : α → α} {l : List α} {x : α}
    (h : x ∈ updateFirst p f l) : x ∈ l ∨ ∃ y ∈ l, x = f y := by
  induction l with
  | nil => simp [updateFirst] at h
  | cons a rest ih =>
    by_cases hp : p a = true
    · simp only [updateFirst, hp, if_true, List.mem_cons] at h
      rcases h with rfl | h
      · exact Or.inr ⟨a, by simp, rfl⟩
      · exact Or.inl (by simp [h])
    · simp only [updateFirst, hp, if_false, Bool.false_eq_true, List.mem_cons] at h
      rcases h with rfl | h
      · exact Or.inl (by simp)
      · rcases ih h with h' | ⟨y, hy, rfl⟩
        · exact Or.inl (by simp [h'])
        · exact Or.inr ⟨y, by simp [hy], rfl⟩

theorem find?_isSome_updateFirst (p q : α → Bool) (f : α → α)
    (hf : ∀ x, q (f x) = q x) (l : List α) :
    ((updateFirst p f l).find? q).isSome = (l.find? q).isSome := by
  induction l with
  | nil => rfl
  | cons a rest ih =>
    by_cases hp : p a = true
    · simp only [updateFirst, hp, if_true]
      by_cases hq : q a = true
      · rw [List.find?_cons_of_pos _ (by rw [hf]; exact hq), List.find?_cons_of_pos _ hq]
        rfl
      · rw [List.find?_cons_of_neg _ (by rw [hf]; simpa using hq),
          List.find?_cons_of_neg _ (by simpa using hq)]
    · simp only [updateFirst, hp, if_false, Bool.false_eq_true]
      by_cases hq : q a = true
      · rw [List.find?_cons_of_pos _ hq, List.find?_cons_of_pos _ hq]
      · rw [List.find?_cons_of_neg _ (by simpa using hq),
          List.find?_cons_of_neg _ (by simpa using hq)]
        exact ih

theorem setReadyFirst_userId (u : String) (ps : List Player) :
    ((setReadyFirst u ps).find? fun p => p.userId == u).isSome =
      ((ps.find? fun p => p.userId == u)).isSome := by
  unfold setReadyFirst
  exact find?_isSome_updateFirst (fun p => p.userId == u) (fun p => p.userId == u)
    (fun p => { p with isReady := true }) (fun x => rfl) ps

theorem setReadyFirst_comm (a b : String) (ps : List Player) :
    setReadyFirst a (setReadyFirst b ps) = setReadyFirst b (setReadyFirst a ps) := by
  by_cases hab : a = b
  · subst hab
    rfl
  · induction ps with
    | nil => rfl
    | cons p rest ih =>
      by_cases hpa : (p.userId == a) = true <;> by_cases hpb : (p.userId == b) = true
      · exact absurd (beq_iff_eq.mp hpa ▸ beq_iff_eq.mp hpb) fun h =>
          hab (by rw [← beq_iff_eq.mp hpa, beq_iff_eq.mp hpb])
      · simp [setReadyFirst, updateFirst, hpa, hpb]
      · simp [setReadyFirst, updateFirst, hpa, hpb]
      · simp only [setReadyFirst, updateFirst, hpa, hpb, if_false, Bool.false_eq_true]
        rw [List.cons.injEq]
        exact ⟨rfl, ih⟩

theorem allReadyCond_setReadyFirst (u : String) (ps : List Player)
    (h : allReadyCond ps = true) : allReadyCond (setReadyFirst u ps) = true := by
  unfold allReadyCond at h ⊢
  rw [Bool.and_eq_true] at h ⊢
  refine ⟨?_, ?_⟩
  · unfold setReadyFirst
    rw [updateFirst_length]
    exact h.1
  · rw [List.all_eq_true] at h ⊢
    intro x hx
    rcases mem_updateFirst hx with hx' | ⟨y, hy, rfl⟩
    · exact h.2 x hx'
    · have hy' := h.2 y hy
      rw [Bool.and_eq_true] at hy' ⊢
      exact ⟨rfl, hy'.2⟩

theorem headId_setReadyFirst (u : String) (ps : List Player) :
    ((setReadyFirst u ps).head?).map Player.id = (ps.head?).map Player.id := by
  cases ps with
  | nil => rfl
  | cons p rest =>
    by_cases h : (p.userId == u) = true <;>
      simp [setReadyFirst, updateFirst, h]

/-- `player-ready` for a seated caller, as an explicit conditional. -/
theorem markReady_found (r : GameRoom) (u : String)
    (h : (r.players.find? fun p => p.userId == u).isSome = true) :
    markReady r u =
      if allReadyCond (setReadyFirst u r.players) then
        { r with players := setReadyFirst u r.players, gameState := .playing,
                 currentTurn := ((setReadyFirst u r.players).head?).map Player.id }
      else { r with players := setReadyFirst u r.players } := by
  unfold markReady
  rw [if_pos h]

theorem markReady_not_found (r : GameRoom) (u : String)
    (h : (r.players.find? fun p => p.userId == u).isSome = false) :
    markReady r u = r := by
  unfold markReady
  rw [if_neg (by simp [h])]

theorem markReady_players (r : GameRoom) (u : String)
    (h : (r.players.find? fun p => p.userId == u).isSome = true) :
    (markReady r u).players = setReadyFirst u r.players := by
  rw [markReady_found r u h]
  split <;> rfl

theorem markReady_immutable (r : GameRoom) (u : String) :
    (markReady r u).id = r.id ∧ (markReady r u).winner = r.winner ∧
      (markReady r u).createdAt = r.createdAt := by
  unfold markReady
  split
  · split <;> exact ⟨rfl, rfl, rfl⟩
  · exact ⟨rfl, rfl, rfl⟩

theorem find?_isSome_setReadyFirst (v w : String) (ps : List Player) :
    ((setReadyFirst w ps).find? fun p => p.userId == v).isSome =
      (ps.find? fun p => p.userId == v).isSome := by
  unfold setReadyFirst
  exact find?_isSome_updateFirst (fun p => p.userId == w) (fun p => p.userId == v)
    (fun p => { p with isReady := true }) (fun x => rfl) ps

/-- C4: a `player-ready` action by a seated caller moves the session to
Playing iff, with the caller's flag set, both seats are present, both are
ready and both hold a non-empty fleet (`allReadyCond`); upon that
transition the turn is set to the id of the first seat of the seat list
(the seat that joined first); and the two seats' ready actions commute —
the session state after both is independent of their order. -/
theorem markReady_transition_iff_comm (r : GameRoom) (u a b : String) :
    (r.gameState ≠ .playing →
      ((markReady r u).gameState = .playing ↔
        ((r.players.find? fun p => p.userId == u).isSome = true ∧
          allReadyCond (setReadyFirst u r.players) = true))) ∧
    (r.gameState ≠ .playing → (markReady r u).gameState = .playing →
      (markReady r u).currentTurn = (r.players.head?).map Player.id) ∧
    (markReady (markReady r a) b = markReady (markReady r b) a) := by
  refine ⟨?_, ?_, ?_⟩
  · intro hne
    by_cases hf : (r.players.find? fun p => p.userId == u).isSome = true
    · rw [markReady_found r u hf]
      by_cases hc : allReadyCond (setReadyFirst u r.players) = true
      · rw [if_pos hc]
        exact iff_of_true rfl ⟨hf, hc⟩
      · rw [if_neg hc]
        exact iff_of_false hne fun hh => hc hh.2
    · rw [markReady_not_found r u (by simpa using hf)]
      exact iff_of_false hne fun hh => hf hh.1
  · intro hne hp
    by_cases hf : (r.players.find? fun p => p.userId == u).isSome = true
    · rw [markReady_found r u hf] at hp ⊢
      by_cases hc : allReadyCond (setReadyFirst u r.players) = true
      · rw [if_pos hc]
        exact headId_setReadyFirst u r.players
      · rw [if_neg hc] at hp
        exact absurd hp hne
    · rw [markReady_not_found r u (by simpa using hf)] at hp
      exact absurd hp hne
  · by_cases ha : (r.players.find? fun p => p.userId == a).isSome = true <;>
      by_cases hb : (r.players.find? fun p => p.userId == b).isSome = true
    · -- both seated
      have hfab : ((markReady r a).players.find? fun p => p.userId == b).isSome = true := by
        rw [markReady_players r a ha, find?_isSome_setReadyFirst]
        exact hb
      have hfba : ((markReady r b).players.find? fun p => p.userId == a).isSome = true := by
        rw [markReady_players r b hb, find?_isSome_setReadyFirst]
        exact ha
      rw [markReady_found (markReady r a) b hfab, markReady_found (markReady r b) a hfba,
        markReady_players r a ha, markReady_players r b hb, setReadyFirst_comm a b r.players]
      by_cases hcF : allReadyCond (setReadyFirst b (setReadyFirst a r.players)) = true
      · rw [if_pos hcF, if_pos hcF]
        obtain ⟨hia, hwa, hca⟩ := markReady_immutable r a
        obtain ⟨hib, hwb, hcb⟩ := markReady_immutable r b
        rw [hia, hib, hwa, hwb, hca, hcb]
      · rw [if_neg hcF, if_neg hcF]
        have hcA : ¬allReadyCond (setReadyFirst a r.players) = true := fun h =>
          hcF (allReadyCond_setReadyFirst b (setReadyFirst a r.players) h)
        have hcB : ¬allReadyCond (setReadyFirst b r.players) = true := fun h =>
          hcF (setReadyFirst_comm a b r.players ▸
            allReadyCond_setReadyFirst a (setReadyFirst b r.players) h)
        rw [markReady_found r a ha, if_neg hcA, markReady_found r b hb, if_neg hcB]
    · -- only a seated
      have hfab : ((markReady r a).players.find? fun p => p.userId == b).isSome = false := by
        rw [markReady_players r a ha, find?_isSome_setReadyFirst]
        simpa using hb
      rw [markReady_not_found (markReady r a) b hfab,
        markReady_not_found r b (by simpa using hb)]
    · -- only b seated
      have hfba : ((markReady r b).players.find? fun p => p.userId == a).isSome = false := by
        rw [markReady_players r b hb, find?_isSome_setReadyFirst]
        simpa using ha
      rw [markReady_not_found (markReady r b) a hfba,
        markReady_not_found r a (by simpa using ha)]
    · -- neither seated
      simp only [markReady_not_found r a (by simpa using ha),
        markReady_not_found r b (by simpa using hb)]

/-- A Setup room with both fleets placed, only seat `a` ready, for the C4
witness. -/
def roomC4 : GameRoom :=
  { mkNewRoom "R4" 0 with
      gameState := .setup
      players :=
        [{ mkJoinPlayer "p4a" "u4a" "Ais" with ships := fleetStd, isReady := true },
         { mkJoinPlayer "p4b" "u4b" "Ben" with ships := fleetStd }] }

/-- Witness for C4: the second ready action starts the game, the turn
goes to the first-joined seat, and the two orders agree. -/
theorem markReady_transition_iff_comm_witness :
    (markReady roomC4 "u4b").gameState = .playing ∧
      (markReady roomC4 "u4b").currentTurn = (roomC4.players.head?).map Player.id ∧
      markReady (markReady roomC4 "u4a") "u4b" = markReady (markReady roomC4 "u4b") "u4a" := by
  have h := markReady_transition_iff_comm roomC4 "u4b" "u4a" "u4b"
  refine ⟨(h.1 (by decide)).mpr ⟨by decide, by decide⟩, ?_, h.2.2⟩
  exact h.2.1 (by decide) ((h.1 (by decide)).mpr ⟨by decide, by decide⟩)

/-! ## Claim C5: the phase/seat invariant -/

/-- The (amended) per-session invariant: a seatless session is Waiting or
Setup, and a Playing session has exactly two seats with the turn held by
one of them. -/
def phaseInv (r : GameRoom) : Prop :=
  (r.players = [] → r.gameState = .waiting ∨ r.gameState = .setup) ∧
  (r.gameState = .playing →
    r.players.length = 2 ∧ ∃ p ∈ r.players, r.currentTurn = some p.id)

theorem exists_id_of_map_eq {l l' : List Player}
    (h : l'.map Player.id = l.map Player.id) {t : Option String}
    (hex : ∃ p ∈ l, t = some p.id) : ∃ p' ∈ l', t = some p'.id := by
  obtain ⟨p, hp, ht⟩ := hex
  have hmem : p.id ∈ l'.map Player.id := by
    rw [h]
    exact List.mem_map_of_mem _ hp
  obtain ⟨p', hp', hid⟩ := List.mem_map.mp hmem
  exact ⟨p', hp', by rw [ht, hid]⟩

theorem head?_mem_of_ne_nil {l : List α} (h : l ≠ []) :
    ∃ a, l.head? = some a ∧ a ∈ l := by
  cases l with
  | nil => exact absurd rfl h
  | cons a rest => exact ⟨a, rfl, by simp⟩

theorem find?_ne_nil {p : α → Bool} {l : List α} {a : α} (h : l.find? p = some a) :
    l ≠ [] := by
  intro hnil
  subst hnil
  simp at h

theorem find?_updateFirst_of_pred_false {p q : α → Bool} {f : α → α} {l : List α} {a : α}
    (h : l.find? p = some a) (hqa : q a = false) (hqfa : q (f a) = false) :
    (updateFirst p f l).find? q = l.find? q := by
  obtain ⟨hpa, l1, l2, rfl, hl1⟩ := List.find?_eq_some.mp h
  rw [updateFirst_append p f l1 l2 a (fun x hx => by simpa using hl1 x hx) hpa]
  rw [List.find?_append, List.find?_append,
    List.find?_cons_of_neg _ (by simp [hqfa]), List.find?_cons_of_neg _ (by simp [hqa])]

theorem phaseInv_mkNewRoom (rid : String) (now : Int) : phaseInv (mkNewRoom rid now) :=
  ⟨fun _ => Or.inl rfl, fun h => by simp [mkNewRoom] at h⟩

theorem phaseInv_addPlayerRoom (r : GameRoom) (p : Player) (hr : phaseInv r) :
    phaseInv (addPlayerRoom r p).1 := by
  unfold addPlayerRoom
  split
  · exact hr
  · split
    · exact hr
    · case isFalse hlen _ =>
      dsimp only
      constructor
      · intro hnil
        simp at hnil
      · intro hplay
        by_cases hcond : (r.players ++ [p]).length = 2 ∧ r.gameState = .waiting
        · rw [if_pos hcond] at hplay
          simp at hplay
        · rw [if_neg hcond] at hplay
          exact absurd ((hr.2 hplay).1) (by omega)

theorem phaseInv_removePlayerRoom (r : GameRoom) (pid : String) (hr : phaseInv r) :
    phaseInv (removePlayerRoom r pid).1 := by
  unfold removePlayerRoom
  split
  · exact hr
  · split
    · exact ⟨fun _ => Or.inl rfl, fun h => by simp at h⟩
    · case isFalse hw =>
      have hwait : r.gameState = .waiting := not_not.mp hw
      refine ⟨fun _ => Or.inl hwait, fun h => ?_⟩
      rw [show (({ r with players := r.players.eraseIdx _ }, true) :
          GameRoom × Bool).1.gameState = r.gameState from rfl, hwait] at h
      simp at h

theorem phaseInv_placeShips (r : GameRoom) (u : String) (ships : List Ship)
    (hr : phaseInv r) : phaseInv (placeShips r u ships) := by
  unfold placeShips
  split
  · split
    · constructor
      · intro hnil
        have hnil' : updateFirst (fun p => p.userId == u)
            (fun p => { p with ships := ships }) r.players = [] := hnil
        have : r.players.length = 0 := by
          rw [← updateFirst_length (fun p => p.userId == u)
            (fun p => { p with ships := ships }) r.players, hnil']
          rfl
        exact hr.1 (List.length_eq_zero.mp this)
      · intro hplay
        refine ⟨?_, ?_⟩
        · rw [updateFirst_length]
          exact (hr.2 hplay).1
        · refine exists_id_of_map_eq ?_ (hr.2 hplay).2
          exact updateFirst_map _ _ Player.id r.players fun x => rfl
    · exact hr
  · exact hr

theorem phaseInv_markReady (r : GameRoom) (u : String) (hr : phaseInv r) :
    phaseInv (markReady r u) := by
  by_cases hf : (r.players.find? fun p => p.userId == u).isSome = true
  · rcases hfs : r.players.find? fun p => p.userId == u with _ | p0
    · rw [hfs] at hf
      simp at hf
    · have hne : r.players ≠ [] := find?_ne_nil hfs
      rw [markReady_found r u hf]
      by_cases hc : allReadyCond (setReadyFirst u r.players) = true
      · rw [if_pos hc]
        have hlen : (setReadyFirst u r.players).length = 2 := by
          unfold allReadyCond at hc
          rw [Bool.and_eq_true] at hc
          simpa using hc.1
        constructor
        · intro hnil
          have hnil' : setReadyFirst u r.players = [] := hnil
          rw [hnil'] at hlen
          simp at hlen
        · intro _
          refine ⟨hlen, ?_⟩
          obtain ⟨p1, hp1, hmem⟩ := head?_mem_of_ne_nil
            (l := setReadyFirst u r.players) (by intro hnil; rw [hnil] at hlen; simp at hlen)
          exact ⟨p1, hmem, by rw [hp1]; rfl⟩
      · rw [if_neg hc]
        constructor
        · intro hnil
          have hnil' : updateFirst (fun p => p.userId == u)
              (fun p => { p with isReady := true }) r.players = [] := hnil
          have : r.players.length = 0 := by
            rw [← updateFirst_length (fun p => p.userId == u)
              (fun p => { p with isReady := true }) r.players, hnil']
            rfl
          exact hr.1 (List.length_eq_zero.mp this)
        · intro hplay
          refine ⟨?_, ?_⟩
          · show (setReadyFirst u r.players).length = 2
            unfold setReadyFirst
            rw [updateFirst_length]
            exact (hr.2 hplay).1
          · refine exists_id_of_map_eq ?_ (hr.2 hplay).2
            exact updateFirst_map _ _ Player.id r.players fun x => rfl
  · rw [markReady_not_found r u (by simpa using hf)]
    exact hr

theorem phaseInv_makeMove (r : GameRoom) (u : String) (x y : Int) (hr : phaseInv r) :
    phaseInv (makeMove r u x y).1 := by
  unfold makeMove
  split
  · exact hr
  · split
    · exact hr
    · rename_i p hfind
      split
      · exact hr
      · split
        · exact hr
        · rename_i o hopp
          have hpne : r.players ≠ [] := find?_ne_nil hfind
          have hfo :
              ((updateFirst (fun q => q.userId == u)
                  (fun _ => shooterAfter p x y
                    (processMove o.board o.ships x y).result.hit) r.players).find?
                fun q => q.id != p.id) = some o := by
            rw [find?_updateFirst_of_pred_false hfind (by simp)
              (by unfold shooterAfter; split <;> simp)]
            exact hopp
          have hlen : (playersAfter r u p o x y).length = r.players.length := by
            unfold playersAfter
            rw [updateFirst_length, updateFirst_length]
          have homem : opponentAfter o (processMove o.board o.ships x y) ∈
              playersAfter r u p o x y := by
            unfold playersAfter
            exact mem_updateFirst_of_find? hfo
          have hplayers_ne : playersAfter r u p o x y ≠ [] := by
            intro hnil
            apply hpne
            rw [← List.length_eq_zero, ← hlen, hnil]
            rfl
          split
          · exact hr
          · split
            · exact hr
            · split
              · exact ⟨fun hnil => absurd hnil hplayers_ne, fun hpl => by simp at hpl⟩
              · refine ⟨fun hnil => absurd hnil hplayers_ne, fun hpl => ?_⟩
                have hpl' : r.gameState = .playing := hpl
                refine ⟨?_, ?_⟩
                · show (playersAfter r u p o x y).length = 2
                  rw [hlen]
                  exact (hr.2 hpl').1
                · exact ⟨opponentAfter o (processMove o.board o.ships x y), homem, rfl⟩

theorem phaseInv_restartRoom (r : GameRoom) : phaseInv (restartRoom r) :=
  ⟨fun _ => Or.inr rfl, fun h => by simp [restartRoom] at h⟩

theorem mem_setRoomReg {rooms : List GameRoom} {room r : GameRoom}
    (h : r ∈ setRoomReg rooms room) : r ∈ rooms ∨ r = room := by
  unfold setRoomReg at h
  split at h
  · rcases mem_updateFirst h with h' | ⟨y, _, rfl⟩
    · exact Or.inl h'
    · exact Or.inr rfl
  · rcases List.mem_append.mp h with h' | h'
    · exact Or.inl h'
    · exact Or.inr (by simpa using h')

theorem inv_modifyRoomReg {rooms : List GameRoom} {rid : String} {f : GameRoom → GameRoom}
    (hf : ∀ r, phaseInv r → phaseInv (f r))
    (hall : ∀ r ∈ rooms, phaseInv r) :
    ∀ r ∈ modifyRoomReg rooms rid f, phaseInv r := by
  intro r hr
  unfold modifyRoomReg at hr
  rcases hfs : getRoomReg rooms rid with _ | r0
  · rw [hfs] at hr
    exact hall r hr
  · rw [hfs] at hr
    rcases mem_setRoomReg hr with h' | rfl
    · exact hall r h'
    · exact hf r0 (hall r0 (List.mem_of_find?_eq_some hfs))

/-- C5 (amended): in every registry state reachable from the empty
registry by the public operations, every session with zero seats is in
phase Waiting or Setup (restart of an empty session yields Setup), and
every Playing session has exactly two seats with the turn equal to one of
the two seat ids. -/
theorem reachable_phase_invariant (R : List GameRoom) (h : ReachableReg R) :
    ∀ r ∈ R, phaseInv r := by
  induction h with
  | init => intro r hr; simp at hr
  | step hreach hstep ih =>
    cases hstep with
    | create rid now =>
      intro r hr
      rcases mem_setRoomReg hr with h' | rfl
      · exact ih r h'
      · exact phaseInv_mkNewRoom rid now
    | addPlayer rid p =>
      exact inv_modifyRoomReg (fun r hr => phaseInv_addPlayerRoom r p hr) ih
    | removePlayer rid pid =>
      exact inv_modifyRoomReg (fun r hr => phaseInv_removePlayerRoom r pid hr) ih
    | submitFleet rid uid ships =>
      exact inv_modifyRoomReg (fun r hr => phaseInv_placeShips r uid ships hr) ih
    | ready rid uid =>
      exact inv_modifyRoomReg (fun r hr => phaseInv_markReady r uid hr) ih
    | fire rid uid x y =>
      exact inv_modifyRoomReg (fun r hr => phaseInv_makeMove r uid x y hr) ih
    | restart rid =>
      exact inv_modifyRoomReg (fun r _ => phaseInv_restartRoom r) ih
    | delete rid =>
      intro r hr
      exact ih r (List.mem_filter.mp hr).1
    | sweep ets fts its now =>
      intro r hr
      exact ih r (List.mem_filter.mp hr).1

/-- C5 counterexample: the claim's invariant `seats = 0 → phase = Waiting`
fails on a reachable registry — `restart-game` does not check that the
caller is seated, so restarting a freshly created empty session puts it
in phase Setup with zero seats. -/
theorem restart_empty_room_reaches_setup :
    ReachableReg [restartRoom (mkNewRoom "R1" 0)] ∧
      (restartRoom (mkNewRoom "R1" 0)).players = [] ∧
      (restartRoom (mkNewRoom "R1" 0)).gameState = .setup ∧
      (restartRoom (mkNewRoom "R1" 0)).gameState ≠ .waiting := by
  refine ⟨?_, rfl, rfl, by decide⟩
  have e1 : createRoomReg [] "R1" 0 = [mkNewRoom "R1" 0] := by decide
  have e2 : modifyRoomReg [mkNewRoom "R1" 0] "R1" restartRoom =
      [restartRoom (mkNewRoom "R1" 0)] := by decide
  have h0 : ReachableReg [mkNewRoom "R1" 0] :=
    e1 ▸ ReachableReg.step ReachableReg.init (StepReg.create [] "R1" 0)
  exact e2 ▸ ReachableReg.step h0 (StepReg.restart [mkNewRoom "R1" 0] "R1")

/-- Witness for the amended C5 invariant at a concrete reachable state. -/
theorem reachable_phase_invariant_witness : phaseInv (mkNewRoom "W5" 7) := by
  have e1 : createRoomReg [] "W5" 7 = [mkNewRoom "W5" 7] := by decide
  have h0 : ReachableReg [mkNewRoom "W5" 7] :=
    e1 ▸ ReachableReg.step ReachableReg.init (StepReg.create [] "W5" 7)
  exact reachable_phase_invariant [mkNewRoom "W5" 7] h0 (mkNewRoom "W5" 7) (by simp)

end Battleship
